import Mathlib

set_option autoImplicit false

namespace SportsBot

/- ===== Python value model =====
   Values stored in the JSON-derived dictionaries the bot manipulates
   (extractor `data`, the session draft `pending_data`, Supabase payloads).
   `null` is Python `None`; `arr` covers JSON arrays (e.g. the `sports` list),
   whose elements the bot never inspects. -/

inductive PyVal where
  | null
  | str (s : String)
  | arr (xs : List PyVal)
  | boolean (b : Bool)
  deriving Repr

/-- Python truthiness for the values above (`if val:`). -/
def PyVal.truthy : PyVal → Bool
  | .null => false
  | .str s => !s.isEmpty
  | .arr xs => !xs.isEmpty
  | .boolean b => b

/-- `val is None` test used by the accumulator loop. -/
def PyVal.isNull : PyVal → Bool
  | .null => true
  | _ => false

/- A Python dict, as an insertion-ordered association list with unique keys.
   `dictSet` matches Python assignment: replace in place, or append a new key. -/
abbrev Dict := List (String × PyVal)

def dictGet (d : Dict) (k : String) : Option PyVal :=
  match d with
  | [] => none
  | kv :: rest => if kv.1 = k then some kv.2 else dictGet rest k

def dictSet (d : Dict) (k : String) (v : PyVal) : Dict :=
  match d with
  | [] => [(k, v)]
  | kv :: rest => if kv.1 = k then (k, v) :: rest else kv :: dictSet rest k v

/-- Python `dict.update`: write every item, nulls included (app.py line 267). -/
def dictUpdate (d : Dict) (data : Dict) : Dict :=
  match data with
  | [] => d
  | kv :: rest => dictUpdate (dictSet d kv.1 kv.2) rest

/-- Truthiness of a `dict.get` result (`if not final_data.get("name")`). -/
def truthyOpt : Option PyVal → Bool
  | some v => v.truthy
  | none => false

/-- Python `a or b` over two `dict.get` results: first operand if truthy. -/
def orPy (a b : Option PyVal) : Option PyVal :=
  match a with
  | some v => if v.truthy then some v else b
  | none => b

/-- Extract the string content of an or-chain result; the trailing
Python `or ""` default makes any falsy result the empty string.
(A truthy non-string would make `.lower()` raise in Python, aborting the
turn inside the webhook try/except; such values yield `""` here.) -/
def asStr : Option PyVal → String
  | some (.str s) => s
  | _ => ""

/- ===== Dedup cache (app.py lines 42-44 and 391-401) ===== -/

def DEDUP_TTL : Nat := 120

/-- `processed_messages`: message id → receipt time. -/
abbrev DedupCache := List (String × Nat)

def cacheGet (c : DedupCache) (k : String) : Option Nat :=
  match c with
  | [] => none
  | kv :: rest => if kv.1 = k then some kv.2 else cacheGet rest k

def cacheSet (c : DedupCache) (k : String) (t : Nat) : DedupCache :=
  match c with
  | [] => [(k, t)]
  | kv :: rest => if kv.1 = k then (k, t) :: rest else kv :: cacheSet rest k t

/-- Outcome of the webhook dedup block for one message. -/
structure DedupDecision where
  admitted : Bool
  cache : DedupCache
  deriving Repr

/-- The dedup block of `webhook` (app.py lines 391-401): an empty id skips the
check entirely; a repeat within `DEDUP_TTL` is dropped; otherwise the id is
recorded at the current time and entries strictly older than the TTL are
purged. -/
def dedupCheck (c : DedupCache) (msgId : String) (now : Nat) : DedupDecision :=
  if msgId = "" then ⟨true, c⟩
  else
    match cacheGet c msgId with
    | some t =>
      if now - t < DEDUP_TTL then ⟨false, c⟩
      else
        let c1 := cacheSet c msgId now
        ⟨true, c1.filter (fun kv => !(decide (now - kv.2 > DEDUP_TTL)))⟩
    | none =>
      let c1 := cacheSet c msgId now
      ⟨true, c1.filter (fun kv => !(decide (now - kv.2 > DEDUP_TTL)))⟩

/-- One inbound text message as seen by the dedup block. -/
structure InEvent where
  msgId : String
  time : Nat
  deriving DecidableEq, Repr

/-- Run the webhook dedup block over a delivery sequence; returns the final
cache and, in order, the events that were admitted (each admitted event is
handled by exactly one `handle_message` call whose reply is sent; a rejected
event is skipped before handling and produces no reply, app.py 394-408). -/
def processEvents (c : DedupCache) : List InEvent → DedupCache × List InEvent
  | [] => (c, [])
  | e :: rest =>
    let d := dedupCheck c e.msgId e.time
    let r := processEvents d.cache rest
    (r.1, if d.admitted then e :: r.2 else r.2)

/- ===== Data accumulator (app.py lines 250-256) ===== -/

/-- The accumulation loop: for each item of this turn's `data`, write it into
the draft unless the value is `None` (`if val is not None: pending[key] = val`). -/
def mergeNonNull (pending : Dict) (data : Dict) : Dict :=
  match data with
  | [] => pending
  | kv :: rest =>
    mergeNonNull (if kv.2.isNull then pending else dictSet pending kv.1 kv.2) rest

/-- Merging a whole sequence of per-turn data objects, in turn-arrival order. -/
def mergeAll (pending : Dict) (ds : List Dict) : Dict :=
  ds.foldl mergeNonNull pending

/-- The last non-null value a single data object writes for key `k`. -/
def lastVal (d : Dict) (k : String) : Option PyVal :=
  match d with
  | [] => none
  | kv :: rest =>
    match lastVal rest k with
    | some v => some v
    | none => if kv.1 = k ∧ !kv.2.isNull then some kv.2 else none

/-- The last non-null value a sequence of data objects writes for key `k`. -/
def lastValAll (ds : List Dict) (k : String) : Option PyVal :=
  match ds with
  | [] => none
  | d :: rest =>
    match lastValAll rest k with
    | some v => some v
    | none => lastVal d k

/-- The non-null keys of one data object. -/
def nonNullKeys (d : Dict) : List String :=
  (d.filter (fun kv => !kv.2.isNull)).map (·.1)

/- ===== Session model (app.py lines 37-44, 180-209) ===== -/

/-- The three fields of a Supabase subscriber record the bot reasons about
(`sub.get("id", "")` is folded into `id` defaulting to the empty string). -/
structure Record where
  id : String
  name : String
  email : String
  deriving DecidableEq, Repr

/-- A conversation entry in `conv["history"]`: role and text content. -/
abbrev HistEntry := String × String

/-- A per-phone conversation (`conversations[phone]`).  `pendingNeeds` and
`knownKids` are `Option` because those dict keys are absent until first set. -/
structure Conv where
  history : List HistEntry
  lastActive : Nat
  pendingData : Dict
  pendingNeeds : Option (List String)
  knownKids : Option (List Record)
  deriving Repr

/-- A fresh conversation as built by `get_conversation`. -/
def freshConv (now : Nat) : Conv :=
  { history := [], lastActive := now, pendingData := [], pendingNeeds := none,
    knownKids := none }

/-- `add_to_history`: append, then keep only the last 20 entries. -/
def addToHistory (h : List HistEntry) (role content : String) : List HistEntry :=
  let h1 := h ++ [(role, content)]
  if h1.length > 20 then h1.drop (h1.length - 20) else h1

/-- The Intent Extractor's output for one turn, after `parse_message` has
filled in the defaults for missing keys (ai_parser.py lines 192-200):
`action` / `data` / `needs` are `none` when absent or JSON null. -/
structure ExtractResult where
  reply : String
  action : Option String
  data : Option Dict
  needs : Option (List String)
  deriving Repr

/-- Python truthiness of the `data` field (`if data:`). -/
def dataTruthy : Option Dict → Bool
  | some d => !d.isEmpty
  | none => false

/-- One turn's view of every external collaborator: the extractor result and
the responses the Supabase / GitHub endpoints would give, plus the
`ADMIN_PHONE` configuration. -/
structure TurnEnv where
  extract : ExtractResult
  phoneKids : List Record
  createResult : Option Record
  emailSubs : List Record
  updateOk : Bool
  deactivateOk : Bool
  adminPhone : String
  deriving Repr

/-- The observable outcome of one `handle_message` call: the updated session,
the returned reply, and every external call made while dispatching. -/
structure TurnOutcome where
  conv : Conv
  reply : String
  createCalls : List Dict
  updateCalls : List (String × Dict)
  deactivateCalls : List (Option PyVal × Option PyVal)
  triggerCalls : List String
  adminNotify : List (String × PyVal)
  emailLookups : Nat
  deriving Repr

def baseOutcome (conv : Conv) (reply : String) : TurnOutcome :=
  { conv := conv, reply := reply, createCalls := [], updateCalls := [],
    deactivateCalls := [], triggerCalls := [], adminNotify := [],
    emailLookups := 0 }

/- ===== handle_message (app.py lines 214-355) ===== -/

def SETTINGS_URL : String := "https://mydailysportsreport.com/signup.html"

/-- Reply substituted when `create_subscriber` fails (app.py line 285). -/
def createFailReply : String :=
  "Hmm, something went wrong saving that. Could you try again?"

/-- Reply when an update finds no candidate subscribers (app.py line 319). -/
def noSubsReply : String :=
  "I couldn\x27t find an active report linked to this number. What email is the report under?"

/-- Reply when `deactivate_subscriber` fails (app.py line 327). -/
def unsubFailReply : String :=
  "I couldn\x27t find that subscription. It may already be inactive."

/-- Reply when a lookup finds nothing (app.py line 340). -/
def lookupEmptyReply : String := "No active reports found for that email."

/-- Lazy `known_kids` population (app.py lines 219-223): on a session's first
turn, fetch the records linked to this phone and pre-seed the draft's email
from the first match. -/
def sessionInit (phoneKids : List Record) (conv : Conv) : Conv :=
  match conv.knownKids with
  | some _ => conv
  | none =>
    match phoneKids with
    | [] => { conv with knownKids := some [] }
    | k :: ks =>
      { conv with
          knownKids := some (k :: ks)
          pendingData := dictSet conv.pendingData ("email") (.str k.email) }

/-- The `[SYSTEM: ...]` context injected on the first message of a session
with known kids (app.py lines 226-234). -/
def contextFor (conv : Conv) : String :=
  match conv.knownKids with
  | some (k :: ks) =>
    if conv.history.length = 0 then
      "\n[SYSTEM: This parent\x27s phone is linked to these existing reports: "
        ++ String.intercalate (", ") ((k :: ks).map (·.name))
        ++ " (email: " ++ k.email
        ++ "). You do NOT need to ask for their email. "
        ++ "For updates, you already know which kids they have.]"
    else ("")
  | _ => ""

/-- Everything `handle_message` does before the action branches
(app.py lines 216-259): known-kids fetch, history append of the user message,
`pending_needs` tracking, and the non-null data merge into the draft. -/
def preDispatch (env : TurnEnv) (text : String) (conv0 : Conv) : Conv :=
  let conv1 := sessionInit env.phoneKids conv0
  let msg := text ++ contextFor conv1
  let conv2 := { conv1 with history := addToHistory conv1.history ("user") msg }
  let res := env.extract
  let conv3 :=
    match res.needs with
    | some ns => if ns.isEmpty then conv2 else { conv2 with pendingNeeds := some ns }
    | none => conv2
  let conv4 :=
    match res.data with
    | some d =>
      if d.isEmpty then conv3
      else { conv3 with pendingData := mergeNonNull conv3.pendingData d }
    | none => conv3
  { conv4 with history := addToHistory conv4.history ("assistant") res.reply }

/-- The merged data a `create` dispatches with (app.py lines 265-267).
In Python `final_data` aliases `conv["pending_data"]`, so `final_data.update(data)`
also rewrites the session draft with this turn's raw (unfiltered) data. -/
def createFinalData (data : Option Dict) (pending : Dict) : Dict :=
  match data with
  | some d => if d.isEmpty then pending else dictUpdate pending d
  | none => pending

/-- The payload `create_subscriber` posts (app.py lines 89-98). -/
def createPayload (data : Dict) (phone : String) : Dict :=
  [("name", (dictGet data ("name")).getD .null),
   ("email", (dictGet data ("email")).getD .null),
   ("parent_email", (dictGet data ("email")).getD .null),
   ("color_theme", (dictGet data ("color_theme")).getD (.str ("blue"))),
   ("favorite_athlete", (dictGet data ("favorite_athlete")).getD (.str (""))),
   ("sports", (dictGet data ("sports")).getD (.arr [])),
   ("phone", .str phone),
   ("active", .boolean true)]

/-- The management-link suffix appended to a successful create reply
(app.py lines 276-277). -/
def manageLinkSuffix (subId : String) : String :=
  "\n\n📎 If you\x27d like to review your selections, reorder sections, or make changes, use this link anytime: "
    ++ SETTINGS_URL ++ "?id=" ++ subId

/-- The `create` branch (app.py lines 263-285). -/
def dispatchCreate (env : TurnEnv) (phone : String) (res : ExtractResult)
    (conv : Conv) : TurnOutcome :=
  let final := createFinalData res.data conv.pendingData
  let conv1 := { conv with pendingData := final }
  if truthyOpt (dictGet final ("name")) = false ∨ truthyOpt (dictGet final ("email")) = false then
    baseOutcome conv1 res.reply
  else
    let payload := createPayload final phone
    match env.createResult with
    | some sub =>
      let conv2 := { conv1 with
        knownKids := some ((conv1.knownKids.getD []) ++ [sub]),
        pendingData := [], pendingNeeds := some [] }
      { baseOutcome conv2 (res.reply ++ manageLinkSuffix sub.id) with
        createCalls := [payload],
        triggerCalls := if sub.id ≠ "" then [sub.id] else [] }
    | none =>
      { baseOutcome conv1 createFailReply with createCalls := [payload] }

/-- Python `str.lower()` (ASCII case folding suffices for this data). -/
def pyLower (s : String) : String :=
  String.mk (s.toList.map Char.toLower)

/-- Python `str.strip()` with no argument. -/
def pyStrip (s : String) : String :=
  String.mk (((s.toList.dropWhile Char.isWhitespace).reverse.dropWhile
    Char.isWhitespace).reverse)

def isPrefixList (p l : List Char) : Bool :=
  match p, l with
  | [], _ => true
  | _ :: _, [] => false
  | a :: as, b :: bs => a == b && isPrefixList as bs

def isSubstrList (n : List Char) : List Char → Bool
  | [] => n.isEmpty
  | c :: rest => isPrefixList n (c :: rest) || isSubstrList n rest

/-- Python `a in b` for strings. -/
def isSubstr (a b : String) : Bool :=
  isSubstrList a.toList b.toList

/-- The candidate-name normalization in the `update` branch (app.py line 292):
`name_raw.lower().rstrip("'s").rstrip("'s")`.  Note `rstrip` takes a character
set, so this removes every trailing apostrophe or letter `s`. -/
def pyRstripAposS (s : String) : String :=
  String.mk ((s.toList.reverse.dropWhile (fun c => c == '\x27' || c == 's')).reverse)

def normalizeName (s : String) : String :=
  pyRstripAposS (pyRstripAposS (pyLower s))

/-- The candidate name string (app.py line 291):
`data.get("name") or conv.get("pending_data", {}).get("name") or ""`. -/
def nameRawOf (d : Dict) (pending : Dict) : String :=
  asStr (orPy (dictGet d ("name")) (dictGet pending ("name")))

/-- Target resolution (app.py lines 293-310): exact case-insensitive match
first, then substring match in either direction, then the single-subscriber
fallback; an empty normalized name skips both matching passes. -/
def resolveTarget (nameMatch : String) (subs : List Record) : Option Record :=
  let exact :=
    if nameMatch = "" then none
    else subs.find? (fun s => pyLower s.name == nameMatch)
  match exact with
  | some t => some t
  | none =>
    let part :=
      if nameMatch = "" then none
      else subs.find?
        (fun s => isSubstr nameMatch (pyLower s.name) || isSubstr (pyLower s.name) nameMatch)
    match part with
    | some t => some t
    | none =>
      match subs with
      | [t] => some t
      | _ => none

/-- The `update` branch (app.py lines 287-319). -/
def dispatchUpdate (env : TurnEnv) (res : ExtractResult) (conv : Conv) : TurnOutcome :=
  let d := res.data.getD []
  let emailVal := orPy (dictGet d ("email")) (dictGet conv.pendingData ("email"))
  let kids := conv.knownKids.getD []
  let subsLookup : List Record × Nat :=
    if !kids.isEmpty then (kids, 0)
    else if truthyOpt emailVal then (env.emailSubs, 1) else ([], 0)
  let subs := subsLookup.1
  if !subs.isEmpty then
    let nameMatch := normalizeName (nameRawOf d conv.pendingData)
    match resolveTarget nameMatch subs with
    | some t =>
      let conv1 :=
        { conv with pendingData := dictSet conv.pendingData ("name") (.str t.name) }
      let updateFields :=
        d.filter (fun kv => !(kv.1 == "email" || kv.1 == "name" || kv.1 == "id"))
      { baseOutcome conv1 res.reply with
        updateCalls := if !updateFields.isEmpty then [(t.id, updateFields)] else [],
        emailLookups := subsLookup.2 }
    | none =>
      { baseOutcome conv res.reply with emailLookups := subsLookup.2 }
  else
    { baseOutcome conv noSubsReply with emailLookups := subsLookup.2 }

/-- The `unsubscribe` branch (app.py lines 321-327); the deactivate call is
recorded with its `(email, name)` arguments. -/
def dispatchUnsubscribe (env : TurnEnv) (res : ExtractResult) (conv : Conv) : TurnOutcome :=
  let d := res.data.getD []
  let call := (dictGet d ("email"), dictGet d ("name"))
  if env.deactivateOk then
    { baseOutcome conv res.reply with deactivateCalls := [call] }
  else
    { baseOutcome conv unsubFailReply with deactivateCalls := [call] }

/-- The `lookup` branch (app.py lines 329-340). -/
def dispatchLookup (env : TurnEnv) (res : ExtractResult) (conv : Conv) : TurnOutcome :=
  let d := res.data.getD []
  if truthyOpt (dictGet d ("email")) then
    match env.emailSubs with
    | [] => { baseOutcome conv lookupEmptyReply with emailLookups := 1 }
    | s :: ss =>
      let links := String.intercalate ("\n")
        ((s :: ss).map (fun r => "• " ++ r.name ++ ": " ++ SETTINGS_URL ++ "?id=" ++ r.id))
      { baseOutcome conv (res.reply ++ "\n\n" ++ links) with emailLookups := 1 }
  else
    baseOutcome conv res.reply

/-- The `feature_request` branch (app.py lines 342-353); the operator
notification is recorded as (requester description, raw feature value). -/
def dispatchFeature (env : TurnEnv) (phone : String) (res : ExtractResult)
    (conv : Conv) : TurnOutcome :=
  let d := res.data.getD []
  let feature := (dictGet d ("request")).getD (.str ("unknown"))
  if env.adminPhone ≠ "" then
    let who :=
      match conv.knownKids.getD [] with
      | [] => "phone " ++ phone
      | k :: ks =>
        String.intercalate (", ") ((k :: ks).map (·.name)) ++ " (" ++ k.email ++ ")"
    { baseOutcome conv res.reply with adminNotify := [(who, feature)] }
  else
    baseOutcome conv res.reply

/-- The action-execution phase of `handle_message` (app.py lines 261-355). -/
def dispatch (env : TurnEnv) (phone : String) (res : ExtractResult)
    (conv : Conv) : TurnOutcome :=
  if res.action = some ("create") then dispatchCreate env phone res conv
  else if res.action = some ("update") ∧ dataTruthy res.data = true then
    dispatchUpdate env res conv
  else if res.action = some ("unsubscribe") ∧ dataTruthy res.data = true then
    dispatchUnsubscribe env res conv
  else if res.action = some ("lookup") ∧ dataTruthy res.data = true then
    dispatchLookup env res conv
  else if res.action = some ("feature_request") ∧ dataTruthy res.data = true then
    dispatchFeature env phone res conv
  else baseOutcome conv res.reply

/-- `handle_message`: pre-dispatch session updates, then the action branches. -/
def handleMessage (env : TurnEnv) (phone text : String) (conv : Conv) : TurnOutcome :=
  dispatch env phone env.extract (preDispatch env text conv)

/-- Number of Directory-mutating calls (create / update / deactivate) an
outcome performed. -/
def TurnOutcome.mutCalls (o : TurnOutcome) : Nat :=
  o.createCalls.length + o.updateCalls.length + o.deactivateCalls.length

/- ===== parse_message (ai_parser.py lines 135-223) =====
   The Claude API call and `json.loads` are external; they are modelled by an
   `ApiOutcome` (the stripped raw text, or an exception) and a JSON-parse
   oracle returning the parsed object or `none` for a `JSONDecodeError`.
   Absent and JSON-null fields of the parsed object are conflated: both make
   the corresponding `result[...]` default to `None` downstream. -/

/-- Result of `client.messages.create(...)` followed by `.strip()`:
either the raw response text, or any raised exception. -/
inductive ApiOutcome where
  | output (raw : String)
  | failure
  deriving Repr

/-- A successfully `json.loads`-parsed response object; `none` fields are
absent keys (filled with defaults at ai_parser.py lines 192-200). -/
structure ParsedObj where
  reply : Option String
  action : Option String
  data : Option Dict
  needs : Option (List String)
  deriving Repr

/-- Fallback reply when the parsed object has no `reply` key. -/
def missingReplyText : String := "Something went wrong — could you try again?"

/-- Fixed apology on any non-JSONDecodeError exception (ai_parser.py 216-223). -/
def apologyReply : String := "Sorry, I\x27m having a moment. Try again in a sec! 🙏"

/-- Fallback reply in the JSONDecodeError branch (ai_parser.py line 211). -/
def unparsedFallbackReply : String := "I didn\x27t quite get that. Could you try again?"

/-- Brace matching (ai_parser.py lines 175-185): starting at the first `\x7b`,
scan tracking depth and return the slice up to the matching `\x7d`. -/
def braceScan (cs : List Char) (depth : Nat) (acc : List Char) : Option String :=
  match cs with
  | [] => none
  | c :: rest =>
    let acc1 := acc ++ [c]
    if c = '\x7b' then braceScan rest (depth + 1) acc1
    else if c = '\x7d' then
      if depth ≤ 1 then some (String.mk acc1) else braceScan rest (depth - 1) acc1
    else braceScan rest depth acc1

/-- `json_str` extraction from the raw response (ai_parser.py lines 165-188):
markdown fences first, then outermost-brace matching; an empty or absent
extraction falls back to the raw text. -/
def extractJsonStr (raw : String) : String :=
  let js : Option String :=
    if isSubstr ("```json") raw then
      match raw.splitOn ("```json") with
      | _ :: second :: _ => some (pyStrip ((second.splitOn ("```")).headD ("")))
      | _ => none
    else if isSubstr ("```") raw then
      match raw.splitOn ("```") with
      | _ :: second :: _ => some (pyStrip ((second.splitOn ("```")).headD ("")))
      | _ => none
    else
      match raw.toList.dropWhile (fun c => c ≠ '\x7b') with
      | [] => none
      | c :: rest => braceScan (c :: rest) 0 []
  match js with
  | some s => if s ≠ "" then s else raw
  | none => raw

/-- The JSONDecodeError recovery (ai_parser.py lines 204-215): keep the text
before the first `\x7b` when there is any, else the raw text; substitute a
fixed fallback when that is empty. -/
def unparsedReply (raw : String) : String :=
  let cs := raw.toList
  let clean :=
    match cs.findIdx? (fun c => c = '\x7b') with
    | some i => if i > 0 then pyStrip (String.mk (cs.take i)) else raw
    | none => raw
  if clean ≠ "" then clean else unparsedFallbackReply

/-- `parse_message`, given the API outcome and the JSON-parse oracle. -/
def parseMessage (api : ApiOutcome) (jsonParse : String → Option ParsedObj) :
    ExtractResult :=
  match api with
  | .failure => { reply := apologyReply, action := none, data := none, needs := none }
  | .output raw =>
    match jsonParse (extractJsonStr raw) with
    | some obj =>
      { reply := obj.reply.getD missingReplyText, action := obj.action,
        data := obj.data, needs := obj.needs }
    | none =>
      { reply := unparsedReply raw, action := none, data := none, needs := none }

/- ===== Remaining definitions used by the theorems ===== -/

/-- Left-biased choice on optional values. -/
def orO (a b : Option PyVal) : Option PyVal :=
  match a with
  | some v => some v
  | none => b

/-- Two data objects have disjoint non-null key sets. -/
def dataDisjoint (d1 d2 : Dict) : Prop :=
  ∀ k ∈ nonNullKeys d1, k ∉ nonNullKeys d2

/-- Modelled from the spec: the normalization §4.4 describes — case-fold and
strip one trailing possessive suffix (so a candidate ending in apostrophe-s
loses exactly that suffix).  Stated for comparison with `normalizeName`,
which embeds the source's `rstrip` call. -/
def specNormalizeName (s : String) : String :=
  let cs := (pyLower s).toList
  if cs.reverse.take 2 = ['s', '\x27'] then String.mk (cs.take (cs.length - 2))
  else String.mk cs

/-- A session that has already gathered a name into its draft. -/
def convJake : Conv :=
  { history := [], lastActive := 0, pendingData := [("name", .str ("Jake"))],
    pendingNeeds := none, knownKids := some [] }

/-- A confirmation turn whose extracted `data` carries a null `name`
alongside the email, with the Directory unavailable. -/
def envNullName : TurnEnv :=
  { extract :=
      { reply := "ok"
        action := some ("create")
        data := some [("name", PyVal.null), ("email", .str ("a@b.com"))]
        needs := none }
    phoneKids := []
    createResult := none
    emailSubs := []
    updateOk := true
    deactivateOk := true
    adminPhone := "" }

def recR : Record := ⟨"r1", "R", "p@x"⟩

def recChris : Record := ⟨"c1", "Chris", "p@x"⟩

def recTim : Record := ⟨"t1", "Tim", "tim@x"⟩

def recDanny : Record := ⟨"d1", "Danny", "tim@x"⟩

/-- A non-first-contact session with no stored state of interest. -/
def convStarted : Conv :=
  { history := [], lastActive := 0, pendingData := [], pendingNeeds := none,
    knownKids := some [] }

/-- A turn environment whose extractor call raised. -/
def envApiDown : TurnEnv :=
  { extract := parseMessage .failure (fun _ => none),
    phoneKids := [], createResult := none, emailSubs := [],
    updateOk := true, deactivateOk := true, adminPhone := "" }

/-- A session already linked to two kids. -/
def convTwoKids : Conv :=
  { history := [], lastActive := 0, pendingData := [], pendingNeeds := none,
    knownKids := some [⟨"t1", "Tim", "tim@x"⟩, ⟨"d1", "Danny", "tim@x"⟩] }

/-- An update turn that names no kid. -/
def envUpdNoName : TurnEnv :=
  { extract :=
      { reply := "Which kid is that for?"
        action := some ("update")
        data := some [("color_theme", PyVal.str ("red"))]
        needs := none }
    phoneKids := []
    createResult := none
    emailSubs := []
    updateOk := true
    deactivateOk := true
    adminPhone := "" }

/-- A create turn that supplies only a sports list. -/
def envSportsOnly : TurnEnv :=
  { extract :=
      { reply := "Who is the report for?"
        action := some ("create")
        data := some [("sports", PyVal.arr [])]
        needs := none }
    phoneKids := []
    createResult := some ⟨"9", "X", "x@y"⟩
    emailSubs := []
    updateOk := true
    deactivateOk := true
    adminPhone := "" }

/-- A confirmed create turn with complete data and a healthy Directory. -/
def envCreateOK : TurnEnv :=
  { extract :=
      { reply := "Created!"
        action := some ("create")
        data := some [("name", PyVal.str ("Tim")), ("email", PyVal.str ("a@b.com"))]
        needs := none }
    phoneKids := []
    createResult := some ⟨"id9", "Tim", "a@b.com"⟩
    emailSubs := []
    updateOk := true
    deactivateOk := true
    adminPhone := "" }

/- ===== Dictionary and accumulator lemmas ===== -/

theorem dictGet_dictSet_self (d : Dict) (k : String) (v : PyVal) :
    dictGet (dictSet d k v) k = some v := by
  induction d with
  | nil => simp [dictSet, dictGet]
  | cons kv rest ih =>
    by_cases h : kv.1 = k
    · simp [dictSet, dictGet, h]
    · simp [dictSet, dictGet, h, ih]

theorem dictGet_dictSet_ne (d : Dict) (k k' : String) (v : PyVal) (h : k' ≠ k) :
    dictGet (dictSet d k v) k' = dictGet d k' := by
  have hkk : k ≠ k' := Ne.symm h
  induction d with
  | nil => simp [dictSet, dictGet, hkk]
  | cons kv rest ih =>
    by_cases hk : kv.1 = k
    · subst hk
      simp [dictSet, dictGet, hkk, Ne.symm hkk]
    · simp only [dictSet, if_neg hk, dictGet]
      by_cases hk' : kv.1 = k'
      · simp [hk']
      · simp [hk', ih]

theorem orO_none_right (a : Option PyVal) : orO a none = a := by
  cases a <;> rfl

theorem orO_assoc (a b c : Option PyVal) : orO (orO a b) c = orO a (orO b c) := by
  cases a <;> rfl

theorem dictGet_mergeNonNull (d : Dict) (p : Dict) (k : String) :
    dictGet (mergeNonNull p d) k = orO (lastVal d k) (dictGet p k) := by
  induction d generalizing p with
  | nil => rfl
  | cons kv rest ih =>
    rw [mergeNonNull, ih]
    cases hl : lastVal rest k with
    | some v => simp [lastVal, hl, orO]
    | none =>
      by_cases hn : kv.2.isNull = true
      · simp [lastVal, hl, hn, orO]
      · by_cases hk : kv.1 = k
        · simp [lastVal, hl, hn, hk, orO, dictGet_dictSet_self]
        · simp [lastVal, hl, hn, hk, orO, dictGet_dictSet_ne _ _ _ _ (Ne.symm hk)]

theorem dictGet_mergeAll (ds : List Dict) (p : Dict) (k : String) :
    dictGet (mergeAll p ds) k = orO (lastValAll ds k) (dictGet p k) := by
  induction ds generalizing p with
  | nil => rfl
  | cons d rest ih =>
    show dictGet (mergeAll (mergeNonNull p d) rest) k = _
    rw [ih, dictGet_mergeNonNull]
    cases hl : lastValAll rest k with
    | some v => simp [lastValAll, hl, orO]
    | none => simp [lastValAll, hl, orO]

theorem lastValAll_isSome_iff (ds : List Dict) (k : String) :
    (lastValAll ds k).isSome = true ↔ ∃ d ∈ ds, (lastVal d k).isSome = true := by
  induction ds with
  | nil => simp [lastValAll]
  | cons d rest ih =>
    rw [lastValAll]
    cases hl : lastValAll rest k with
    | some v =>
      simp only [Option.isSome_some, true_iff]
      obtain ⟨d', hd', h'⟩ := ih.mp (by simp [hl])
      exact ⟨d', by simp [hd'], h'⟩
    | none =>
      constructor
      · intro h
        exact ⟨d, by simp, h⟩
      · rintro ⟨d', hd', h'⟩
        rcases List.mem_cons.mp hd' with h1 | h1
        · subst h1; exact h'
        · exact absurd (ih.mpr ⟨d', h1, h'⟩) (by simp [hl])

theorem nonNullKeys_cons (kv : String × PyVal) (rest : Dict) :
    nonNullKeys (kv :: rest) =
      if kv.2.isNull = true then nonNullKeys rest else kv.1 :: nonNullKeys rest := by
  by_cases hn : kv.2.isNull = true <;> simp [nonNullKeys, List.filter_cons, hn]

theorem lastVal_isSome_mem (d : Dict) (k : String)
    (h : (lastVal d k).isSome = true) : k ∈ nonNullKeys d := by
  induction d with
  | nil => simp [lastVal] at h
  | cons kv rest ih =>
    rw [lastVal] at h
    rw [nonNullKeys_cons]
    cases hl : lastVal rest k with
    | some v =>
      have hmem := ih (by simp [hl])
      by_cases hn : kv.2.isNull = true <;> simp [hn, hmem]
    | none =>
      rw [hl] at h
      by_cases hk : kv.1 = k
      · by_cases hn : kv.2.isNull = true
        · simp [hk, hn] at h
        · simp [hn, hk]
      · simp [hk] at h

theorem lastVal_eq_none_of_not_mem (d : Dict) (k : String)
    (h : k ∉ nonNullKeys d) : lastVal d k = none := by
  cases hl : lastVal d k with
  | none => rfl
  | some v => exact absurd (lastVal_isSome_mem d k (by simp [hl])) h

theorem lastValAll_eq_none (ds : List Dict) (k : String)
    (h : ∀ d ∈ ds, lastVal d k = none) : lastValAll ds k = none := by
  induction ds with
  | nil => rfl
  | cons d rest ih =>
    rw [lastValAll, ih (fun d' hd' => h d' (by simp [hd']))]
    exact h d (by simp)

theorem lastValAll_cons (d : Dict) (rest : List Dict) (k : String) :
    lastValAll (d :: rest) k = orO (lastValAll rest k) (lastVal d k) := by
  rw [lastValAll]
  cases lastValAll rest k <;> rfl

theorem lastValAll_eq_head_of_le (ds : List Dict) (k : String)
    (h : (ds.filterMap (fun d => lastVal d k)).length ≤ 1) :
    lastValAll ds k = (ds.filterMap (fun d => lastVal d k)).head? := by
  induction ds with
  | nil => rfl
  | cons d rest ih =>
    rw [lastValAll_cons]
    rw [List.filterMap_cons] at h ⊢
    cases hl : lastVal d k with
    | none =>
      rw [hl] at h
      dsimp only at h ⊢
      rw [orO_none_right]
      exact ih h
    | some v =>
      rw [hl] at h
      dsimp only at h ⊢
      have hnil : rest.filterMap (fun d => lastVal d k) = [] := by
        cases hfm : rest.filterMap (fun d => lastVal d k) with
        | nil => rfl
        | cons x xs => simp [hfm] at h
      have : lastValAll rest k = none :=
        lastValAll_eq_none rest k (List.filterMap_eq_nil_iff.mp hnil)
      rw [this]
      simp [orO, hnil]

theorem filterMap_lastVal_length_le_one (ds : List Dict) (k : String)
    (hdisj : ds.Pairwise dataDisjoint) :
    (ds.filterMap (fun d => lastVal d k)).length ≤ 1 := by
  induction ds with
  | nil => simp
  | cons d rest ih =>
    rw [List.pairwise_cons] at hdisj
    obtain ⟨h1, h2⟩ := hdisj
    rw [List.filterMap_cons]
    cases hl : lastVal d k with
    | none => exact ih h2
    | some v =>
      have hk : k ∈ nonNullKeys d := lastVal_isSome_mem d k (by simp [hl])
      have hnil : rest.filterMap (fun d => lastVal d k) = [] :=
        List.filterMap_eq_nil_iff.mpr (fun d' hd' =>
          lastVal_eq_none_of_not_mem d' k (h1 d' hd' k hk))
      simp [hnil]

theorem dataDisjoint_symm {d1 d2 : Dict} (h : dataDisjoint d1 d2) :
    dataDisjoint d2 d1 :=
  fun k hk2 hk1 => h k hk1 hk2

theorem perm_eq_of_length_le_one {α : Type} {l l' : List α}
    (hp : l.Perm l') (h : l.length ≤ 1) : l = l' := by
  cases l with
  | nil => exact (hp.symm.eq_nil).symm
  | cons a as =>
    cases as with
    | nil => exact (List.singleton_perm.mp hp)
    | cons b bs => simp at h

/- ===== Dedup cache lemmas ===== -/

theorem cacheGet_cacheSet_self (c : DedupCache) (k : String) (t : Nat) :
    cacheGet (cacheSet c k t) k = some t := by
  induction c with
  | nil => simp [cacheSet, cacheGet]
  | cons kv rest ih =>
    by_cases h : kv.1 = k
    · simp [cacheSet, cacheGet, h]
    · simp [cacheSet, cacheGet, h, ih]

theorem cacheGet_cacheSet_ne (c : DedupCache) (k k' : String) (t : Nat)
    (h : k' ≠ k) : cacheGet (cacheSet c k t) k' = cacheGet c k' := by
  have hkk : k ≠ k' := Ne.symm h
  induction c with
  | nil => simp [cacheSet, cacheGet, hkk]
  | cons kv rest ih =>
    by_cases hk : kv.1 = k
    · subst hk
      simp [cacheSet, cacheGet, hkk, Ne.symm hkk]
    · simp only [cacheSet, if_neg hk, cacheGet]
      by_cases hk' : kv.1 = k'
      · simp [hk']
      · simp [hk', ih]

theorem cacheGet_filter (p : String × Nat → Bool) (c : DedupCache) (k : String)
    (t : Nat) (h : cacheGet c k = some t) (hp : p (k, t) = true) :
    cacheGet (c.filter p) k = some t := by
  induction c with
  | nil => simp [cacheGet] at h
  | cons kv rest ih =>
    obtain ⟨a, b⟩ := kv
    rw [cacheGet] at h
    dsimp only at h
    by_cases hk : a = k
    · rw [if_pos hk] at h
      have hbt : b = t := by injection h
      subst hbt
      subst hk
      simp [List.filter_cons, hp, cacheGet]
    · rw [if_neg hk] at h
      rw [List.filter_cons]
      by_cases hb : p (a, b) = true
      · simp only [hb, if_true]
        rw [cacheGet]
        dsimp only
        rw [if_neg hk]
        exact ih h
      · simp only [hb, if_false]
        exact ih h

theorem dedupCheck_admitted_get (c : DedupCache) (id : String) (t : Nat)
    (hid : id ≠ "") (h : (dedupCheck c id t).admitted = true) :
    cacheGet (dedupCheck c id t).cache id = some t := by
  rw [dedupCheck] at h ⊢
  rw [if_neg hid] at h ⊢
  cases hg : cacheGet c id with
  | none =>
    dsimp only
    exact cacheGet_filter _ _ _ _ (cacheGet_cacheSet_self c id t) (by simp)
  | some t0 =>
    rw [hg] at h
    dsimp only at h ⊢
    by_cases hlt : t - t0 < DEDUP_TTL
    · rw [if_pos hlt] at h
      simp at h
    · rw [if_neg hlt]
      exact cacheGet_filter _ _ _ _ (cacheGet_cacheSet_self c id t) (by simp)

theorem dedupCheck_preserves (c : DedupCache) (id : String) (t1 : Nat)
    (mId : String) (mT : Nat) (hne : mId ≠ id)
    (ht : mT ≤ t1 + DEDUP_TTL) (h : cacheGet c id = some t1) :
    cacheGet (dedupCheck c mId mT).cache id = some t1 := by
  rw [dedupCheck]
  by_cases hm : mId = ""
  · rw [if_pos hm]
    exact h
  · rw [if_neg hm]
    have hset : cacheGet (cacheSet c mId mT) id = some t1 :=
      (cacheGet_cacheSet_ne c mId id mT (Ne.symm hne)).trans h
    have hkeep : (!(decide (mT - t1 > DEDUP_TTL))) = true := by
      simp only [Bool.not_eq_true', decide_eq_false_iff_not]
      omega
    cases hg : cacheGet c mId with
    | none =>
      dsimp only
      exact cacheGet_filter _ _ _ _ hset hkeep
    | some t0 =>
      dsimp only
      by_cases hlt : mT - t0 < DEDUP_TTL
      · rw [if_pos hlt]
        exact h
      · rw [if_neg hlt]
        exact cacheGet_filter _ _ _ _ hset hkeep

theorem processEvents_preserves (mid : List InEvent) (c : DedupCache)
    (id : String) (t1 : Nat)
    (hmid : ∀ e ∈ mid, e.msgId ≠ id ∧ e.time ≤ t1 + DEDUP_TTL)
    (h : cacheGet c id = some t1) :
    cacheGet (processEvents c mid).1 id = some t1 := by
  induction mid generalizing c with
  | nil => exact h
  | cons e rest ih =>
    rw [processEvents]
    obtain ⟨hne, ht⟩ := hmid e (List.mem_cons_self e rest)
    exact ih _ (fun e' he' => hmid e' (List.mem_cons_of_mem e he'))
      (dedupCheck_preserves c id t1 e.msgId e.time hne ht h)

theorem processEvents_sublist (es : List InEvent) (c : DedupCache) :
    (processEvents c es).2.Sublist es := by
  induction es generalizing c with
  | nil => simp [processEvents]
  | cons e rest ih =>
    rw [processEvents]
    by_cases ha : (dedupCheck c e.msgId e.time).admitted = true
    · simp only [ha, if_true]
      exact (ih _).cons₂ e
    · simp only [Bool.not_eq_true] at ha
      simp only [ha, Bool.false_eq_true, if_false]
      exact (ih _).cons e

theorem no_second_admission (mid : List InEvent) (c : DedupCache)
    (id : String) (t1 t2 : Nat) (hid : id ≠ "")
    (hmid : ∀ e ∈ mid, e.msgId ≠ id ∧ e.time ≤ t1 + DEDUP_TTL)
    (hc : cacheGet c id = some t1) (ht2 : t2 - t1 < DEDUP_TTL) :
    (processEvents c (mid ++ [⟨id, t2⟩])).2.filter (fun e => e.msgId == id) = [] := by
  induction mid generalizing c with
  | nil =>
    rw [List.nil_append, processEvents]
    have : dedupCheck c id t2 = ⟨false, c⟩ := by
      rw [dedupCheck, if_neg hid, hc]
      simp [ht2]
    rw [this]
    simp [processEvents]
  | cons e rest ih =>
    rw [List.cons_append, processEvents]
    obtain ⟨hne, ht⟩ := hmid e (List.mem_cons_self e rest)
    have hpres := dedupCheck_preserves c id t1 e.msgId e.time hne ht hc
    have htail := ih _ (fun e' he' => hmid e' (List.mem_cons_of_mem e he')) hpres
    by_cases ha : (dedupCheck c e.msgId e.time).admitted = true
    · simp only [ha, if_true]
      rw [List.filter_cons]
      simp only [beq_eq_false_iff_ne, ne_eq, beq_iff_eq, hne, if_false]
      exact htail
    · simp only [Bool.not_eq_true] at ha
      simp only [ha, Bool.false_eq_true, if_false]
      exact htail

/- ===== Dispatch lemmas ===== -/

theorem mutCalls_dispatchCreate_le (env : TurnEnv) (phone : String)
    (res : ExtractResult) (conv : Conv) :
    (dispatchCreate env phone res conv).mutCalls ≤ 1 := by
  unfold dispatchCreate
  dsimp only
  split
  · simp [baseOutcome, TurnOutcome.mutCalls]
  · split <;> simp [baseOutcome, TurnOutcome.mutCalls]

theorem mutCalls_dispatchUpdate_le (env : TurnEnv) (res : ExtractResult)
    (conv : Conv) : (dispatchUpdate env res conv).mutCalls ≤ 1 := by
  unfold dispatchUpdate
  dsimp only
  repeat' split
  all_goals simp [baseOutcome, TurnOutcome.mutCalls]

theorem mutCalls_dispatchUnsubscribe_le (env : TurnEnv) (res : ExtractResult)
    (conv : Conv) : (dispatchUnsubscribe env res conv).mutCalls ≤ 1 := by
  unfold dispatchUnsubscribe
  dsimp only
  split <;> simp [baseOutcome, TurnOutcome.mutCalls]

theorem mutCalls_dispatchLookup_eq (env : TurnEnv) (res : ExtractResult)
    (conv : Conv) : (dispatchLookup env res conv).mutCalls = 0 := by
  unfold dispatchLookup
  dsimp only
  split
  · split <;> simp [baseOutcome, TurnOutcome.mutCalls]
  · simp [baseOutcome, TurnOutcome.mutCalls]

theorem mutCalls_dispatchFeature_eq (env : TurnEnv) (phone : String)
    (res : ExtractResult) (conv : Conv) :
    (dispatchFeature env phone res conv).mutCalls = 0 := by
  unfold dispatchFeature
  dsimp only
  split <;> simp [baseOutcome, TurnOutcome.mutCalls]

theorem mutCalls_handleMessage_le (env : TurnEnv) (phone text : String)
    (conv : Conv) : (handleMessage env phone text conv).mutCalls ≤ 1 := by
  rw [handleMessage, dispatch]
  split_ifs
  · exact mutCalls_dispatchCreate_le _ _ _ _
  · exact mutCalls_dispatchUpdate_le _ _ _
  · exact mutCalls_dispatchUnsubscribe_le _ _ _
  · exact Nat.le_of_eq (mutCalls_dispatchLookup_eq _ _ _) |>.trans (by simp)
  · exact Nat.le_of_eq (mutCalls_dispatchFeature_eq _ _ _ _) |>.trans (by simp)
  · simp [baseOutcome, TurnOutcome.mutCalls]

/- ===== Claim theorems ===== -/

/-- C1: for every sender, two inbound events carrying the same non-empty
event id, the second delivered within the dedup TTL of the first (any
intervening traffic carrying other ids), lead to at most one admission to
message handling — hence at most one `handle_message` call and one reply send
for the pair — and every handled turn performs at most one Directory-mutating
call. -/
theorem dedup_pair_at_most_one_dispatch (c : DedupCache) (id : String)
    (t1 t2 : Nat) (mid : List InEvent) (hid : id ≠ "")
    (hmid : ∀ e ∈ mid, e.msgId ≠ id ∧ e.time ≤ t1 + DEDUP_TTL)
    (ht2 : t2 - t1 < DEDUP_TTL) :
    ((processEvents c (⟨id, t1⟩ :: (mid ++ [⟨id, t2⟩]))).2.filter
        (fun e => e.msgId == id)).length ≤ 1 ∧
    (∀ env phone text conv, (handleMessage env phone text conv).mutCalls ≤ 1) := by
  refine ⟨?_, fun env phone text conv => mutCalls_handleMessage_le env phone text conv⟩
  rw [processEvents]
  by_cases ha : (dedupCheck c id t1).admitted = true
  · simp only [ha, if_true]
    have hget := dedupCheck_admitted_get c id t1 hid ha
    have hnone := no_second_admission mid _ id t1 t2 hid hmid hget ht2
    rw [List.filter_cons]
    simp only [beq_self_eq_true, if_true]
    rw [hnone]
    simp
  · simp only [Bool.not_eq_true] at ha
    simp only [ha, Bool.false_eq_true, if_false]
    have hlen := ((processEvents_sublist (mid ++ [⟨id, t2⟩])
      (dedupCheck c id t1).cache).filter (fun e => e.msgId == id)).length_le
    have hone : ((mid ++ [(⟨id, t2⟩ : InEvent)]).filter
        (fun e => e.msgId == id)).length ≤ 1 := by
      rw [List.filter_append]
      have hmidf : mid.filter (fun e => e.msgId == id) = [] :=
        List.filter_eq_nil_iff.mpr (fun e he => by simp [(hmid e he).1])
      rw [hmidf]
      simp
    exact le_trans hlen hone

/-- C1 witness: a concrete duplicate pair 50 seconds apart, with one other
message in between, yields exactly one admitted delivery for that id. -/
theorem dedup_pair_at_most_one_dispatch_witness :
    ("wamid.1" : String) ≠ "" ∧
    (∀ e ∈ [(⟨"other", 10⟩ : InEvent)], e.msgId ≠ "wamid.1" ∧ e.time ≤ 0 + DEDUP_TTL) ∧
    50 - 0 < DEDUP_TTL ∧
    ((processEvents [] (⟨"wamid.1", 0⟩ :: ([⟨"other", 10⟩] ++ [⟨"wamid.1", 50⟩]))).2.filter
        (fun e => e.msgId == "wamid.1")).length ≤ 1 :=
  ⟨by decide, by decide, by decide,
    (dedup_pair_at_most_one_dispatch [] ("wamid.1") 0 50 [⟨"other", 10⟩]
      (by decide) (by decide) (by decide)).1⟩

/-- C10: an inbound message whose event id is the empty string (the default
when the id key is absent) skips the dedup block entirely: it is admitted on
every delivery — including an immediate identical redelivery — and is never
recorded in the dedup cache. -/
theorem empty_event_id_skips_dedup (c : DedupCache) (t t' : Nat) :
    dedupCheck c ("") t = ⟨true, c⟩ ∧
    processEvents c [⟨"", t⟩, ⟨"", t'⟩] = (c, [⟨"", t⟩, ⟨"", t'⟩]) := by
  constructor
  · rw [dedupCheck]
    simp
  · simp [processEvents, dedupCheck]

/-- C8: merging a sequence of per-turn data objects with pairwise-disjoint
non-null key sets into a draft is order-independent (the resulting drafts
agree as key-value mappings, which is Python dict equality), the populated
keys of the result are the union of the initial draft's keys and the
sequence's non-null keys, and — disjoint or not — the value at each key is
the last non-null write in turn-arrival order, falling back to the initial
draft. -/
theorem merge_disjoint_order_independent (p : Dict) (ds ds' : List Dict)
    (hperm : ds.Perm ds') (hdisj : ds.Pairwise dataDisjoint) :
    (∀ k, dictGet (mergeAll p ds) k = dictGet (mergeAll p ds') k) ∧
    (∀ k, (dictGet (mergeAll p ds) k).isSome = true ↔
      ((dictGet p k).isSome = true ∨ ∃ d ∈ ds, (lastVal d k).isSome = true)) ∧
    (∀ q es k, dictGet (mergeAll q es) k = orO (lastValAll es k) (dictGet q k)) := by
  refine ⟨?_, ?_, fun q es k => dictGet_mergeAll es q k⟩
  · intro k
    rw [dictGet_mergeAll, dictGet_mergeAll]
    have h1 := filterMap_lastVal_length_le_one ds k hdisj
    have hdisj' : ds'.Pairwise dataDisjoint :=
      (hperm.pairwise_iff (fun h => dataDisjoint_symm h)).mp hdisj
    have h2 := filterMap_lastVal_length_le_one ds' k hdisj'
    have hfm : ds.filterMap (fun d => lastVal d k)
        = ds'.filterMap (fun d => lastVal d k) :=
      perm_eq_of_length_le_one (hperm.filterMap _) h1
    rw [lastValAll_eq_head_of_le ds k h1, lastValAll_eq_head_of_le ds' k h2, hfm]
  · intro k
    rw [dictGet_mergeAll]
    cases hl : lastValAll ds k with
    | some v =>
      simp only [orO, Option.isSome_some, true_iff]
      exact Or.inr ((lastValAll_isSome_iff ds k).mp (by simp [hl]))
    | none =>
      have hno : ¬ ∃ d ∈ ds, (lastVal d k).isSome = true := fun hex => by
        simpa [hl] using (lastValAll_isSome_iff ds k).mpr hex
      simp [orO, hno]

/-- C8 witness: the same two disjoint single-key data objects merged in both
orders on top of a draft already holding a name. -/
theorem merge_disjoint_order_independent_witness :
    ([[("email", PyVal.str ("a@b.com"))], [("sports", PyVal.arr [])]] : List Dict).Perm
      [[("sports", PyVal.arr [])], [("email", PyVal.str ("a@b.com"))]] ∧
    ([[("email", PyVal.str ("a@b.com"))], [("sports", PyVal.arr [])]] : List Dict).Pairwise
      dataDisjoint ∧
    dictGet (mergeAll [("name", PyVal.str ("Jake"))]
        [[("email", PyVal.str ("a@b.com"))], [("sports", PyVal.arr [])]]) ("email")
      = dictGet (mergeAll [("name", PyVal.str ("Jake"))]
        [[("sports", PyVal.arr [])], [("email", PyVal.str ("a@b.com"))]]) ("email") :=
  ⟨List.Perm.swap _ _ _,
   by
    constructor
    · intro d hd
      simp only [List.mem_singleton] at hd
      subst hd
      intro k hk
      simp [nonNullKeys, PyVal.isNull] at hk
      simp [hk, nonNullKeys, PyVal.isNull]
    · simp,
   (merge_disjoint_order_independent [("name", PyVal.str ("Jake"))]
      [[("email", PyVal.str ("a@b.com"))], [("sports", PyVal.arr [])]]
      [[("sports", PyVal.arr [])], [("email", PyVal.str ("a@b.com"))]]
      (List.Perm.swap _ _ _)
      (by
        constructor
        · intro d hd
          simp only [List.mem_singleton] at hd
          subst hd
          intro k hk
          simp [nonNullKeys, PyVal.isNull] at hk
          simp [hk, nonNullKeys, PyVal.isNull]
        · simp)).1 ("email")⟩

/-- C2 (code bug): in the `create` branch `final_data` aliases the session
draft and `dict.update(data)` writes this turn's raw values without the
accumulator's null filter, so a turn whose data maps `name` to null leaves
the draft with `name ↦ null` — erasing the previously gathered "Jake" and
violating the never-null draft invariant — even though the incomplete-data
guard then returns without dispatching. -/
theorem create_branch_writes_null_into_draft :
    dictGet convJake.pendingData ("name") = some (PyVal.str ("Jake")) ∧
    dictGet (handleMessage envNullName ("15550001111") ("yes") convJake).conv.pendingData
        ("name") = some PyVal.null ∧
    (handleMessage envNullName ("15550001111") ("yes") convJake).createCalls = [] :=
  ⟨rfl, rfl, rfl⟩

/-- C3: a `create` turn whose merged final data (accumulated draft updated
with this turn's data) is missing `name` or missing `email` makes no
Directory create call and no Trigger call, returns the extractor's reply
unchanged, and clears no session field: the session ends the turn exactly as
the pre-dispatch phase left it, except that the draft aliases the merged
final data. -/
theorem create_incomplete_no_dispatch (env : TurnEnv) (phone text : String)
    (conv : Conv) (ha : env.extract.action = some ("create"))
    (hmiss :
      dictGet (createFinalData env.extract.data
        (preDispatch env text conv).pendingData) ("name") = none ∨
      dictGet (createFinalData env.extract.data
        (preDispatch env text conv).pendingData) ("email") = none) :
    (handleMessage env phone text conv).createCalls = [] ∧
    (handleMessage env phone text conv).triggerCalls = [] ∧
    (handleMessage env phone text conv).reply = env.extract.reply ∧
    (handleMessage env phone text conv).conv =
      { preDispatch env text conv with
          pendingData := createFinalData env.extract.data
            (preDispatch env text conv).pendingData } := by
  have hcond :
      truthyOpt (dictGet (createFinalData env.extract.data
        (preDispatch env text conv).pendingData) ("name")) = false ∨
      truthyOpt (dictGet (createFinalData env.extract.data
        (preDispatch env text conv).pendingData) ("email")) = false := by
    cases hmiss with
    | inl h => exact Or.inl (by rw [h]; rfl)
    | inr h => exact Or.inr (by rw [h]; rfl)
  rw [handleMessage, dispatch, if_pos ha, dispatchCreate]
  dsimp only
  rw [if_pos hcond]
  simp [baseOutcome]

/-- C3 witness: a create turn carrying only a sports list against an empty
draft dispatches nothing. -/
theorem create_incomplete_no_dispatch_witness :
    envSportsOnly.extract.action = some ("create") ∧
    dictGet (createFinalData envSportsOnly.extract.data
      (preDispatch envSportsOnly ("hi") convStarted).pendingData) ("name") = none ∧
    (handleMessage envSportsOnly ("p") ("hi") convStarted).createCalls = [] :=
  ⟨rfl, rfl,
    (create_incomplete_no_dispatch envSportsOnly ("p") ("hi") convStarted rfl
      (Or.inl rfl)).1⟩

/-- C4: when a `create` dispatches (merged data has a truthy name and email):
on Directory success the draft and `pending_needs` are reset to empty,
exactly one new entity — the created record — is appended to the session's
known entities, and one Trigger call fires with the new record's (non-empty)
identifier; on Directory failure the draft is not cleared (it still holds the
merged data, name and email included), `pending_needs` is untouched, and the
reply becomes the generic retry message. -/
theorem create_dispatch_outcomes (env : TurnEnv) (phone text : String)
    (conv : Conv) (ha : env.extract.action = some ("create"))
    (hname : truthyOpt (dictGet (createFinalData env.extract.data
      (preDispatch env text conv).pendingData) ("name")) = true)
    (hemail : truthyOpt (dictGet (createFinalData env.extract.data
      (preDispatch env text conv).pendingData) ("email")) = true) :
    (∀ sub, env.createResult = some sub → sub.id ≠ "" →
      (handleMessage env phone text conv).conv.pendingData = [] ∧
      (handleMessage env phone text conv).conv.pendingNeeds = some [] ∧
      (handleMessage env phone text conv).conv.knownKids =
        some (((preDispatch env text conv).knownKids.getD []) ++ [sub]) ∧
      (handleMessage env phone text conv).triggerCalls = [sub.id] ∧
      (handleMessage env phone text conv).createCalls =
        [createPayload (createFinalData env.extract.data
          (preDispatch env text conv).pendingData) phone]) ∧
    (env.createResult = none →
      (handleMessage env phone text conv).conv.pendingData =
        createFinalData env.extract.data (preDispatch env text conv).pendingData ∧
      (handleMessage env phone text conv).conv.pendingNeeds =
        (preDispatch env text conv).pendingNeeds ∧
      (handleMessage env phone text conv).reply = createFailReply ∧
      (handleMessage env phone text conv).createCalls =
        [createPayload (createFinalData env.extract.data
          (preDispatch env text conv).pendingData) phone]) := by
  rw [handleMessage, dispatch, if_pos ha, dispatchCreate]
  dsimp only
  have hcond : ¬ (truthyOpt (dictGet (createFinalData env.extract.data
      (preDispatch env text conv).pendingData) ("name")) = false ∨
      truthyOpt (dictGet (createFinalData env.extract.data
      (preDispatch env text conv).pendingData) ("email")) = false) := by
    simp [hname, hemail]
  rw [if_neg hcond]
  constructor
  · intro sub hsub hid
    rw [hsub]
    dsimp only
    rw [if_pos hid]
    simp [baseOutcome]
  · intro hnone
    rw [hnone]
    dsimp only
    simp [baseOutcome]

/-- C4 witness: a complete confirmed create with a healthy Directory clears
the draft and fires the Trigger with the new record's id. -/
theorem create_dispatch_outcomes_witness :
    envCreateOK.extract.action = some ("create") ∧
    envCreateOK.createResult = some ⟨"id9", "Tim", "a@b.com"⟩ ∧
    (handleMessage envCreateOK ("p") ("yes") convStarted).conv.pendingData = [] ∧
    (handleMessage envCreateOK ("p") ("yes") convStarted).triggerCalls = ["id9"] :=
  ⟨rfl, rfl,
    ((create_dispatch_outcomes envCreateOK ("p") ("yes") convStarted rfl rfl rfl).1
      ⟨"id9", "Tim", "a@b.com"⟩ rfl (by decide)).1,
    ((create_dispatch_outcomes envCreateOK ("p") ("yes") convStarted rfl rfl rfl).1
      ⟨"id9", "Tim", "a@b.com"⟩ rfl (by decide)).2.2.2.1⟩

/-- C5 (code bug): the update branch normalizes candidates with
`lower().rstrip("'s")`, and `rstrip` takes a character set, removing every
trailing apostrophe or letter s rather than one possessive suffix.
"Tim's" still normalizes to "tim" and resolves to Tim among [Tim, Danny];
but "Chris" normalizes to "chri" while the spec's possessive-stripping
normalization gives "chris", which exactly matches the entity "Chris" —
and against known entities [R, Chris] the code's exact pass fails and its
substring pass resolves "Chris" to the wrong entity R. -/
theorem resolver_rstrip_mangles_names :
    normalizeName ("Tim\x27s") = "tim" ∧
    specNormalizeName ("Tim\x27s") = "tim" ∧
    resolveTarget (normalizeName ("Tim\x27s")) [recTim, recDanny] = some recTim ∧
    specNormalizeName ("Chris") = "chris" ∧
    normalizeName ("Chris") = "chri" ∧
    pyLower recChris.name = specNormalizeName ("Chris") ∧
    resolveTarget (specNormalizeName ("Chris")) [recR, recChris] = some recChris ∧
    resolveTarget (normalizeName ("Chris")) [recR, recChris] = some recR :=
  ⟨rfl, rfl, rfl, rfl, rfl, rfl, rfl, rfl⟩

/-- C6: an update turn whose candidate name text is empty or absent while the
sender has two or more known entities resolves no target and makes no
Directory update call; session state and reply are exactly what the
pre-dispatch phase produced. -/
theorem update_empty_name_ambiguous (env : TurnEnv) (phone text : String)
    (conv : Conv) (subs : List Record)
    (ha : env.extract.action = some ("update"))
    (hd : dataTruthy env.extract.data = true)
    (hk : (preDispatch env text conv).knownKids = some subs)
    (hlen : 2 ≤ subs.length)
    (hname : nameRawOf (env.extract.data.getD [])
      (preDispatch env text conv).pendingData = "") :
    resolveTarget ("") subs = none ∧
    (handleMessage env phone text conv).updateCalls = [] ∧
    (handleMessage env phone text conv).conv = preDispatch env text conv ∧
    (handleMessage env phone text conv).reply = env.extract.reply := by
  rcases subs with _ | ⟨a, _ | ⟨b, rest⟩⟩
  · exact absurd hlen (by simp)
  · exact absurd hlen (by simp)
  · have hres : resolveTarget ("") (a :: b :: rest) = none := rfl
    have hrun : handleMessage env phone text conv =
        baseOutcome (preDispatch env text conv) env.extract.reply := by
      rw [handleMessage, dispatch, if_neg (by simp [ha]), if_pos ⟨ha, hd⟩,
        dispatchUpdate]
      dsimp only
      rw [hk, hname]
      rfl
    exact ⟨hres, by rw [hrun]; rfl, by rw [hrun]; rfl, by rw [hrun]; rfl⟩

/-- C6 witness: a nameless update with two known kids dispatches no update. -/
theorem update_empty_name_ambiguous_witness :
    envUpdNoName.extract.action = some ("update") ∧
    (preDispatch envUpdNoName ("hi") convTwoKids).knownKids = some [recTim, recDanny] ∧
    nameRawOf (envUpdNoName.extract.data.getD [])
      (preDispatch envUpdNoName ("hi") convTwoKids).pendingData = "" ∧
    (handleMessage envUpdNoName ("p") ("hi") convTwoKids).updateCalls = [] :=
  ⟨rfl, rfl, rfl,
    (update_empty_name_ambiguous envUpdNoName ("p") ("hi") convTwoKids
      [recTim, recDanny] rfl rfl rfl (by decide) rfl).2.1⟩

/-- C7: when the exact pass and the substring pass both fail (or are skipped
for an empty normalized name) but the sender has exactly one known entity,
resolution falls back to that entity regardless of the candidate text; in
particular candidate "Jake" against the single known entity Tim resolves to
Tim. -/
theorem single_entity_fallback (nameMatch : String) (t : Record)
    (hex : nameMatch = "" ∨ pyLower t.name ≠ nameMatch)
    (hsub : nameMatch = "" ∨ (isSubstr nameMatch (pyLower t.name) = false ∧
      isSubstr (pyLower t.name) nameMatch = false)) :
    resolveTarget nameMatch [t] = some t ∧
    resolveTarget (normalizeName ("Jake")) [recTim] = some recTim := by
  refine ⟨?_, rfl⟩
  rw [resolveTarget]
  by_cases h0 : nameMatch = ""
  · simp [h0]
  · have hex' := hex.resolve_left h0
    obtain ⟨hs1, hs2⟩ := hsub.resolve_left h0
    have h1 : (pyLower t.name == nameMatch) = false := by
      simpa using hex'
    have h2 : (isSubstr nameMatch (pyLower t.name)
        || isSubstr (pyLower t.name) nameMatch) = false := by
      rw [hs1, hs2]
      rfl
    simp [h0, List.find?, h1, h2]

/-- C7 witness: the single-entity fallback at candidate "jake" and entity
Tim. -/
theorem single_entity_fallback_witness :
    (pyLower recTim.name ≠ "jake") ∧
    resolveTarget ("jake") [recTim] = some recTim :=
  ⟨by decide,
    (single_entity_fallback ("jake") recTim (Or.inr (by decide))
      (Or.inr (by decide))).1⟩

/-- C9 counterexample: the claim fails on the code in two ways.  A turn whose
extractor call raised still mutates session state — the user message and the
apology are appended to history.  And unparseable extractor output does not
yield the fixed apology: the text before the first brace is used as the
reply. -/
theorem extraction_failure_claim_false :
    (handleMessage envApiDown ("p") ("hi") convStarted).conv.history
      = [("user", "hi"), ("assistant", apologyReply)] ∧
    convStarted.history = [] ∧
    (parseMessage (.output ("Sure! Let me note that \x7bbroken"))
      (fun _ => none)).reply = "Sure! Let me note that" ∧
    (parseMessage (.output ("Sure! Let me note that \x7bbroken"))
      (fun _ => none)).reply ≠ apologyReply ∧
    (parseMessage (.output ("Sure! Let me note that \x7bbroken"))
      (fun _ => none)).action = none :=
  ⟨rfl, rfl, rfl, by decide, rfl⟩

/-- C9 (amended): when the Intent Extractor call fails — the API raised, or
its output did not parse as JSON — the turn carries action none: no
dispatcher side effect of any kind occurs, the draft and pending-needs are
unchanged (for a session past first contact), and the returned reply is the
substituted one (the fixed apology on API failure; for unparseable output
the text before the first brace, or a fixed fallback).  History bookkeeping
still runs, so the conversation resumes on the next message. -/
theorem extraction_failure_no_dispatch (api : ApiOutcome)
    (J : String → Option ParsedObj) (phone text : String) (conv : Conv)
    (env : TurnEnv) (henv : env.extract = parseMessage api J)
    (hfail : match api with
      | .failure => True
      | .output raw => J (extractJsonStr raw) = none)
    (hk : conv.knownKids.isSome = true) :
    (handleMessage env phone text conv).createCalls = [] ∧
    (handleMessage env phone text conv).updateCalls = [] ∧
    (handleMessage env phone text conv).deactivateCalls = [] ∧
    (handleMessage env phone text conv).triggerCalls = [] ∧
    (handleMessage env phone text conv).adminNotify = [] ∧
    (handleMessage env phone text conv).emailLookups = 0 ∧
    (handleMessage env phone text conv).conv.pendingData = conv.pendingData ∧
    (handleMessage env phone text conv).conv.pendingNeeds = conv.pendingNeeds ∧
    (handleMessage env phone text conv).reply = env.extract.reply := by
  have hact : env.extract.action = none ∧ env.extract.data = none
      ∧ env.extract.needs = none := by
    rw [henv]
    cases api with
    | failure => exact ⟨rfl, rfl, rfl⟩
    | output raw =>
      rw [parseMessage, hfail]
      exact ⟨rfl, rfl, rfl⟩
  obtain ⟨ha, hd, hn⟩ := hact
  obtain ⟨ks, hks⟩ := Option.isSome_iff_exists.mp hk
  have hsess : sessionInit env.phoneKids conv = conv := by
    rw [sessionInit.eq_def, hks]
  have hpre : preDispatch env text conv =
      { conv with history := addToHistory (addToHistory conv.history ("user")
          (text ++ contextFor conv)) ("assistant") env.extract.reply } := by
    rw [preDispatch]
    dsimp only
    rw [hsess, hn, hd]
  rw [handleMessage, dispatch,
    if_neg (by simp [ha]), if_neg (by simp [ha]), if_neg (by simp [ha]),
    if_neg (by simp [ha]), if_neg (by simp [ha]), hpre]
  simp [baseOutcome]

/-- C9 witness: an API-failure turn on an established session makes no
external call and leaves the draft untouched. -/
theorem extraction_failure_no_dispatch_witness :
    (envApiDown.extract = parseMessage .failure (fun _ => none)) ∧
    convStarted.knownKids.isSome = true ∧
    (handleMessage envApiDown ("p") ("hi") convStarted).createCalls = [] ∧
    (handleMessage envApiDown ("p") ("hi") convStarted).conv.pendingData
      = convStarted.pendingData :=
  ⟨rfl, rfl,
    (extraction_failure_no_dispatch .failure (fun _ => none) ("p") ("hi")
      convStarted envApiDown rfl trivial rfl).1,
    (extraction_failure_no_dispatch .failure (fun _ => none) ("p") ("hi")
      convStarted envApiDown rfl trivial rfl).2.2.2.2.2.2.1⟩

end SportsBot
